import Mathlib

/-!
Shallow embedding of the xchainer array core (`xchainer/array.cc`): the
Array value type, its device-conditional construction, the dtype-dispatched
elementwise `Add`/`Mul` kernels in their out-of-place, out-parameter and
in-place call shapes, the computational-graph side effects, and the
diagnostic graph dump.  Buffers are modelled at element granularity as
lists of bit patterns (natural numbers below 2^width); the graph lives in
an explicit append-only store, with value nodes and edge records addressed
by their indices.  Native IEEE-754 floating-point arithmetic is kept
abstract: the development is parametric in it.
-/

namespace xchainer

/-- Dtype is the closed set of element type tags (enum class Dtype in the
source; the eight tags are exactly those dispatched in the switches of
Array::Add and Array::Mul in `xchainer/array.cc` lines 114-141 / 149-176). -/
inductive Dtype where
  | kBool
  | kInt8
  | kInt16
  | kInt32
  | kInt64
  | kUInt8
  | kFloat32
  | kFloat64
deriving DecidableEq, Repr

/-- Modelled from the spec: GetElementSize (declared in `xchainer/dtype.h`,
which is not under `src/`) maps each dtype tag to its element byte width;
spec section 3: each dtype maps to exactly one byte width (bool, int8,
uint8: 1; int16: 2; int32, float32: 4; int64, float64: 8). -/
def GetElementSize : Dtype → Nat
  | .kBool => 1
  | .kInt8 => 1
  | .kInt16 => 2
  | .kInt32 => 4
  | .kInt64 => 8
  | .kUInt8 => 1
  | .kFloat32 => 4
  | .kFloat64 => 8

/-- Modelled from the spec: Shape::total_size (declared in
`xchainer/shape.h`, which is not under `src/`) is the product of the
extents, 1 for an empty shape (spec section 3).  A shape is modelled as
the ordered list of its non-negative dimension extents; shape equality is
element-wise, i.e. list equality. -/
def total_size (shape : List Nat) : Nat := shape.prod

/-- Modelled from the spec: device tags (`xchainer/device.h` is not under
`src/`).  The core only compares the ambient current-device tag against
MakeDevice("cuda") for equality, so two tags suffice. -/
inductive Device where
  | cpu
  | cuda
deriving DecidableEq, Repr

/-- Modelled from the spec: the recoverable precondition failures raised by
the CheckEqual overloads called at the top of Array::Add and Array::Mul
(the raising CheckEqual overloads are declared in headers not under
`src/`; spec sections 4.2 and 7: dtype inequality raises DtypeMismatch,
shape inequality raises ShapeMismatch). -/
inductive Err where
  | DtypeMismatch
  | ShapeMismatch
deriving DecidableEq, Repr

/-- Native IEEE-754 single/double precision arithmetic on bit patterns is
deliberately left abstract: the development is parametric in these four
binary operations on element bit patterns.  Every kernel theorem below
holds for an arbitrary interpretation, hence in particular for whatever
the hardware float/double `+` and `*` of `Array::Add<float>` etc. compute. -/
structure FloatSem where
  f32add : Nat → Nat → Nat
  f32mul : Nat → Nat → Nat
  f64add : Nat → Nat → Nat
  f64mul : Nat → Nat → Nat

/-- Wrap-around addition of w-bit integer element bit patterns: the C++
integer `+` of `Add<T>` followed by storing into the w-bit element is
two's-complement / unsigned wrap-around, i.e. addition mod 2^w on the bit
patterns (signed overflow is modelled as the wrap-around the hardware
performs). -/
def wrapAdd (w x y : Nat) : Nat := (x + y) % 2 ^ w

/-- Wrap-around multiplication of w-bit integer element bit patterns
(see wrapAdd). -/
def wrapMul (w x y : Nat) : Nat := (x * y) % 2 ^ w

/-- C++ `bool` element addition in `Add<bool>`: both operands are promoted
to int, added, and the sum is converted back to bool on assignment
(nonzero becomes true).  On the patterns 0/1 this is logical or. -/
def boolAdd (x y : Nat) : Nat := if x + y = 0 then 0 else 1

/-- C++ `bool` element multiplication in `Mul<bool>` (see boolAdd): the
int product converted back to bool, logical and on the patterns 0/1. -/
def boolMul (x y : Nat) : Nat := if x * y = 0 then 0 else 1

/-- The scalar operation selected for each tag by the exhaustive
`switch (dtype_)` of Array::Add (`xchainer/array.cc` lines 114-141): the
template argument T of `Add<T>` determines the native `+` the kernel
applies. -/
def addScalarOp (fs : FloatSem) : Dtype → Nat → Nat → Nat
  | .kBool => boolAdd
  | .kInt8 => wrapAdd 8
  | .kInt16 => wrapAdd 16
  | .kInt32 => wrapAdd 32
  | .kInt64 => wrapAdd 64
  | .kUInt8 => wrapAdd 8
  | .kFloat32 => fs.f32add
  | .kFloat64 => fs.f64add

/-- The scalar operation selected for each tag by the exhaustive
`switch (dtype_)` of Array::Mul (`xchainer/array.cc` lines 149-176). -/
def mulScalarOp (fs : FloatSem) : Dtype → Nat → Nat → Nat
  | .kBool => boolMul
  | .kInt8 => wrapMul 8
  | .kInt16 => wrapMul 16
  | .kInt32 => wrapMul 32
  | .kInt64 => wrapMul 64
  | .kUInt8 => wrapMul 8
  | .kFloat32 => fs.f32mul
  | .kFloat64 => fs.f64mul

/-- Exclusive upper bound of the valid element bit patterns of a dtype:
bool elements are 0 or 1, a w-bit integer or float element is a pattern
below 2^w. -/
def elemMax : Dtype → Nat
  | .kBool => 2
  | d => 2 ^ (8 * GetElementSize d)

/-- Modelled from the spec: OpNode (declared in `xchainer/op_node.h`,
which is not under `src/`): an edge record holding the operation's
symbolic name and the ordered operand value-node references, first operand
before second (spec section 3); immutable after creation.  Value nodes
are addressed by their index in the state's append-only node list. -/
structure OpNode where
  name : String
  next_nodes : List Nat
deriving DecidableEq, Repr

/-- The mutable store of the embedding: `bufs` holds the backing data
buffers (element bit patterns), `nodes` the value nodes (ArrayNode is
reduced to its one field: `next_node`, the optional index of the producing
OpNode; `none` means leaf), and `ops` the edge records.  All three lists
are append-only; ids are list indices. -/
structure State where
  bufs : List (List Nat)
  nodes : List (Option Nat)
  ops : List OpNode
deriving DecidableEq, Repr

/-- The store before any Array has been constructed. -/
def emptyState : State := ⟨[], [], []⟩

/-- The Array value type (`xchainer/array.h`, fields as listed in spec
section 3): shape, dtype, contiguity flag, byte offset, the id of the
backing buffer it shares, and the id of its current graph value node. -/
structure Array where
  shape : List Nat
  dtype : Dtype
  is_contiguous : Bool
  offset : Int
  data : Nat
  node : Nat
deriving DecidableEq, Repr

/-- Source: `Array::Array(shape, dtype, data, offset)` (`xchainer/array.cc`
lines 38-49).  The member initializer list sets `is_contiguous_ = true`
and `node_ = make_shared<ArrayNode>()`: a brand-new leaf node, producer
unset.  The body reads the ambient current device once: on the CUDA path
AllocateCudaManaged allocates a managed buffer of exactly
`total_size * element size` bytes and memcpy-copies that many bytes from
the start of the caller-supplied buffer (the offset is not applied); on
the CPU path the caller's buffer is taken over unchanged (no copy).
Buffers are element-granular here, so the CUDA copy takes the first
`total_size` elements of the source contents. -/
def ArrayCtor (dev : Device) (shape : List Nat) (dtype : Dtype) (src : List Nat)
    (offset : Int) (s : State) : Array × State :=
  let contents :=
    match dev with
    | .cuda => src.take (total_size shape)
    | .cpu => src
  (⟨shape, dtype, true, offset, s.bufs.length, s.nodes.length⟩,
    ⟨s.bufs ++ [contents], s.nodes ++ [none], s.ops⟩)

/-- Source: the element loop shared by `Array::Add<T>` and `Array::Mul<T>`
(`xchainer/array.cc` lines 76-82 and 94-100):
for i in [0, total_size): `odata[i] = op(ldata[i], rdata[i])`, reading and
writing through the raw buffer base pointers (no offsets applied).
`lid`, `rid`, `oid` are the buffer ids of lhs, rhs and out.  The loop is
modelled against the evolving store, so aliasing among the three buffers
behaves exactly as the source order of reads and writes dictates (at step
i both operands are read at index i before index i of the output is
written). -/
def binOpKernel (op : Nat → Nat → Nat) (lid rid oid n : Nat)
    (bufs : List (List Nat)) : List (List Nat) :=
  (List.range n).foldl
    (fun bs i =>
      bs.set oid ((bs.getD oid []).set i
        (op ((bs.getD lid []).getD i 0) ((bs.getD rid []).getD i 0))))
    bufs

/-- Source: common body of the templates `Array::Add<T>` and
`Array::Mul<T>` (`xchainer/array.cc` lines 73-107); the two differ only in
the scalar operation and in the tag string of the OpNode.  After the
element loop the current nodes of lhs and rhs are read; then
`out.CreateNewNode()` allocates a fresh value node (producer unset) and
replaces `out`'s node reference with it (modelled from the spec, section
4.2 step 2: CreateNewNode is declared in `xchainer/array.h`, which is not
under `src/`); a new OpNode tagged with the operation's symbolic name and
referencing the operand nodes in left-then-right order is created; finally
`out_node->set_next_node(op_node)` sets the fresh node's producer
(modelled from the spec, step 4: set_next_node is declared in
`xchainer/op_node.h`). -/
def binOpT (tag : String) (op : Nat → Nat → Nat) (lhs rhs out : Array)
    (s : State) : Array × State :=
  let n := total_size lhs.shape
  let bufs1 := binOpKernel op lhs.data rhs.data out.data n s.bufs
  let lhsNode := lhs.node
  let rhsNode := rhs.node
  let outNode := s.nodes.length
  let out1 : Array := { out with node := outNode }
  let opId := s.ops.length
  let nodes1 := (s.nodes ++ [none]).set outNode (some opId)
  (out1, ⟨bufs1, nodes1, s.ops ++ [⟨tag, [lhsNode, rhsNode]⟩]⟩)

/-- Source: the template `Array::Add<T>` (`xchainer/array.cc` lines
73-89), kernel plus graph side effect, tagged "add". -/
def Array.AddT (op : Nat → Nat → Nat) (lhs rhs out : Array) (s : State) :
    Array × State :=
  binOpT "add" op lhs rhs out s

/-- Source: the template `Array::Mul<T>` (`xchainer/array.cc` lines
91-107), kernel plus graph side effect, tagged "mul". -/
def Array.MulT (op : Nat → Nat → Nat) (lhs rhs out : Array) (s : State) :
    Array × State :=
  binOpT "mul" op lhs rhs out s

/-- Source: `void Array::Add(const Array& rhs, Array& out)`
(`xchainer/array.cc` lines 109-142): first `CheckEqual(dtype_, rhs.dtype())`
(raises DtypeMismatch on inequality), then
`CheckEqual(shape_, rhs.shape())` (raises ShapeMismatch), then the
exhaustive `switch (dtype_)` dispatches to `Add<T>` with the native T of
the shared dtype.  On success the out array with its replaced node and the
new store are returned; on failure nothing has been written. -/
def Array.AddOut (fs : FloatSem) (lhs rhs out : Array) (s : State) :
    Except Err (Array × State) :=
  if lhs.dtype = rhs.dtype then
    if lhs.shape = rhs.shape then
      .ok (match lhs.dtype with
        | .kBool => Array.AddT boolAdd lhs rhs out s
        | .kInt8 => Array.AddT (wrapAdd 8) lhs rhs out s
        | .kInt16 => Array.AddT (wrapAdd 16) lhs rhs out s
        | .kInt32 => Array.AddT (wrapAdd 32) lhs rhs out s
        | .kInt64 => Array.AddT (wrapAdd 64) lhs rhs out s
        | .kUInt8 => Array.AddT (wrapAdd 8) lhs rhs out s
        | .kFloat32 => Array.AddT fs.f32add lhs rhs out s
        | .kFloat64 => Array.AddT fs.f64add lhs rhs out s)
    else .error .ShapeMismatch
  else .error .DtypeMismatch

/-- Source: `void Array::Mul(const Array& rhs, Array& out)`
(`xchainer/array.cc` lines 144-177), the Mul analogue of Array.AddOut. -/
def Array.MulOut (fs : FloatSem) (lhs rhs out : Array) (s : State) :
    Except Err (Array × State) :=
  if lhs.dtype = rhs.dtype then
    if lhs.shape = rhs.shape then
      .ok (match lhs.dtype with
        | .kBool => Array.MulT boolMul lhs rhs out s
        | .kInt8 => Array.MulT (wrapMul 8) lhs rhs out s
        | .kInt16 => Array.MulT (wrapMul 16) lhs rhs out s
        | .kInt32 => Array.MulT (wrapMul 32) lhs rhs out s
        | .kInt64 => Array.MulT (wrapMul 64) lhs rhs out s
        | .kUInt8 => Array.MulT (wrapMul 8) lhs rhs out s
        | .kFloat32 => Array.MulT fs.f32mul lhs rhs out s
        | .kFloat64 => Array.MulT fs.f64mul lhs rhs out s)
    else .error .ShapeMismatch
  else .error .DtypeMismatch

/-- Source: `Array Array::Add(const Array& rhs) const` (`xchainer/array.cc`
lines 61-65): constructs
`Array out = (shape_, dtype_, make_unique of uint8_t[total_bytes()])` —
a value-initialized, i.e. zeroed, buffer of `total_size` elements, with
the constructor's offset parameter at its default 0 (the default argument
is declared in `xchainer/array.h`; modelled from the spec) — and then
calls `Add(rhs, out)` and returns out.  When that call raises, stack
unwinding destroys out, releasing its transient buffer and leaf node, so
the caller observes only the error and an unchanged store; the error
result therefore carries no state. -/
def Array.Add (fs : FloatSem) (dev : Device) (lhs rhs : Array) (s : State) :
    Except Err (Array × State) :=
  let os := ArrayCtor dev lhs.shape lhs.dtype
    (List.replicate (total_size lhs.shape) 0) 0 s
  Array.AddOut fs lhs rhs os.1 os.2

/-- Source: `Array Array::Mul(const Array& rhs) const` (`xchainer/array.cc`
lines 67-71), the Mul analogue of Array.Add. -/
def Array.Mul (fs : FloatSem) (dev : Device) (lhs rhs : Array) (s : State) :
    Except Err (Array × State) :=
  let os := ArrayCtor dev lhs.shape lhs.dtype
    (List.replicate (total_size lhs.shape) 0) 0 s
  Array.MulOut fs lhs rhs os.1 os.2

/-- Source: `Array& Array::IAdd(const Array& rhs)` (`xchainer/array.cc`
lines 51-54): `Add(rhs, *this); return *this;` — the receiver is the
output array, and on success the returned array is the receiver itself,
whose node reference was replaced by the call. -/
def Array.IAdd (fs : FloatSem) (a rhs : Array) (s : State) :
    Except Err (Array × State) :=
  Array.AddOut fs a rhs a s

/-- Source: `Array& Array::IMul(const Array& rhs)` (`xchainer/array.cc`
lines 56-59), the Mul analogue of Array.IAdd. -/
def Array.IMul (fs : FloatSem) (a rhs : Array) (s : State) :
    Except Err (Array × State) :=
  Array.MulOut fs a rhs a s

/-- A run of `k` indent characters (kIndentChar is the space). -/
def spaces (k : Nat) : String := String.mk (List.replicate k ' ')

/-- Option-threaded fold modelling the operand loop of the recursive dump:
the C++ for-loop appends each operand's dump to the stream; the fuelled
model threads possible fuel exhaustion through Option. -/
def optFold (h : Nat → Option String) (acc : Option String) (L : List Nat) :
    Option String :=
  L.foldl (fun o m => o.bind fun str => (h m).map fun t => str ++ t) acc

/-- Source: the recursive
`DebugDumpComputationalGraph(ostream&, const ArrayNode&, int indent)`
(`xchainer/array.cc` lines 183-195): emit the node's identity at
`indent * 2` spaces (the source prints the node's address, the model its
id); if the node has a producer, emit the producer's name one level deeper
and recurse into each of its operand nodes, in order, two levels deeper.
The C++ recursion carries no termination measure; the model adds explicit
fuel, and the termination theorem shows the fuel bound `node id + 1` is
never exhausted on graphs built by the core's operations.  The traversal
is read-only: it is a pure function of the store. -/
def DebugDumpComputationalGraph (s : State) : Nat → Nat → Nat → Option String
  | 0, _, _ => none
  | fuel + 1, nodeId, indent =>
    let line1 := spaces (indent * 2) ++ "ArrayNode<" ++ toString nodeId ++ ">" ++ "\n"
    match s.nodes.getD nodeId none with
    | none => some line1
    | some opId =>
      let op := s.ops.getD opId ⟨"", []⟩
      let line2 := spaces ((indent + 1) * 2) ++ "Op<" ++ op.name ++ ">" ++ "\n"
      optFold (fun m => DebugDumpComputationalGraph s fuel m (indent + 2))
        (some (line1 ++ line2)) op.next_nodes

/-- Source: `DebugDumpComputationalGraph(ostream&, const Array&, int)`
(`xchainer/array.cc` lines 199-201): dump starting from the array's
current node. -/
def DebugDumpComputationalGraphArr (s : State) (a : Array) (indent fuel : Nat) :
    Option String :=
  DebugDumpComputationalGraph s fuel a.node indent

/-- A client step against the core's public operations: construct an
Array, call the out-of-place Add/Mul on two already-constructed arrays
(the result is appended to the environment), or call IAdd/IMul on them
(the receiver is replaced in the environment).  These are exactly the
graph-building operations the spec names. -/
inductive Cmd where
  | construct (dev : Device) (shape : List Nat) (dtype : Dtype)
      (src : List Nat) (offset : Int)
  | addO (dev : Device) (i j : Nat)
  | mulO (dev : Device) (i j : Nat)
  | iaddO (i j : Nat)
  | imulO (i j : Nat)
deriving DecidableEq, Repr

/-- Execute one client step.  A raising call terminates only that call
(spec section 5), leaving environment and store unchanged. -/
def exec (fs : FloatSem) (c : Cmd) : List Array × State → List Array × State
  | (env, s) =>
    match c with
    | .construct dev shape dtype src off =>
      let r := ArrayCtor dev shape dtype src off s
      (env ++ [r.1], r.2)
    | .addO dev i j =>
      match env.get? i, env.get? j with
      | some a, some b =>
        match Array.Add fs dev a b s with
        | .ok r => (env ++ [r.1], r.2)
        | .error _ => (env, s)
      | _, _ => (env, s)
    | .mulO dev i j =>
      match env.get? i, env.get? j with
      | some a, some b =>
        match Array.Mul fs dev a b s with
        | .ok r => (env ++ [r.1], r.2)
        | .error _ => (env, s)
      | _, _ => (env, s)
    | .iaddO i j =>
      match env.get? i, env.get? j with
      | some a, some b =>
        match Array.IAdd fs a b s with
        | .ok r => (env.set i r.1, r.2)
        | .error _ => (env, s)
      | _, _ => (env, s)
    | .imulO i j =>
      match env.get? i, env.get? j with
      | some a, some b =>
        match Array.IMul fs a b s with
        | .ok r => (env.set i r.1, r.2)
        | .error _ => (env, s)
      | _, _ => (env, s)

/-- Execute a whole client program. -/
def execMany (fs : FloatSem) (cs : List Cmd) (p : List Array × State) :
    List Array × State :=
  cs.foldl (fun q c => exec fs c q) p

/-- Well-formedness of an Array against a store: its buffer id and node id
are allocated and its backing buffer holds at least `total_size` elements
(the Array invariant of spec section 3). -/
def WFArray (s : State) (a : Array) : Prop :=
  a.data < s.bufs.length ∧ a.node < s.nodes.length ∧
    total_size a.shape ≤ (s.bufs.getD a.data []).length

instance (s : State) (a : Array) : Decidable (WFArray s a) := by
  unfold WFArray; exact inferInstance

/-- Acyclicity invariant of the graph (spec: a node's operands always
predate it): every producer link points to an allocated edge record all of
whose operand nodes have strictly smaller ids than the produced node. -/
def WFGraph (s : State) : Prop :=
  ∀ k p, s.nodes.getD k none = some p →
    p < s.ops.length ∧ ∀ m ∈ (s.ops.getD p ⟨"", []⟩).next_nodes, m < k

/-- Invariant of a client run: the graph is acyclic and every array of the
environment points at an allocated node. -/
def EnvInv (p : List Array × State) : Prop :=
  WFGraph p.2 ∧ ∀ a ∈ p.1, a.node < p.2.nodes.length

/-- A concrete interpretation of the abstract float arithmetic, used only
to instantiate parametric theorems at concrete inputs. -/
def fsTriv : FloatSem :=
  ⟨wrapAdd 32, wrapMul 32, wrapAdd 64, wrapMul 64⟩

/-- An interpretation of the abstract float arithmetic that agrees with
IEEE-754 round-to-nearest at the single point where it is evaluated below:
the single-precision sum of -0.0 (bit pattern 2^31) and +0.0 (bit pattern
0) is +0.0 (bit pattern 0). -/
def fsNegZero : FloatSem :=
  ⟨fun x y => if x = 2 ^ 31 ∧ y = 0 then 0 else wrapAdd 32 x y,
    wrapMul 32, wrapAdd 64, wrapMul 64⟩

/-- Witness fixture: a store holding two one-element int32 buffers and two
leaf nodes. -/
def sW : State := ⟨[[1, 2], [3, 4]], [none, none], []⟩

/-- Witness fixture: the Array over buffer 0 / node 0 of sW. -/
def aW : Array := ⟨[2], .kInt32, true, 0, 0, 0⟩

/-- Witness fixture: the Array over buffer 1 / node 1 of sW. -/
def bW : Array := ⟨[2], .kInt32, true, 0, 1, 1⟩

/-- Counterexample fixture: a store with a single shared one-element int32
buffer and two leaf nodes. -/
def sAlias : State := ⟨[[1]], [none, none], []⟩

/-- Counterexample fixture: receiver array over the shared buffer 0. -/
def aAlias : Array := ⟨[1], .kInt32, true, 0, 0, 0⟩

/-- Counterexample fixture: argument array aliasing the same buffer 0
(spec section 3: the backing buffer is shared by every Array that aliases
it). -/
def bAlias : Array := ⟨[1], .kInt32, true, 0, 0, 1⟩

/-- Counterexample fixture: a store with one float32 array holding -0.0
(bit pattern 2^31 = 2147483648) and one holding +0.0. -/
def sF : State := ⟨[[2147483648], [0]], [none, none], []⟩

/-- Counterexample fixture: the float32 array holding [-0.0]. -/
def aF : Array := ⟨[1], .kFloat32, true, 0, 0, 0⟩

/-- Counterexample fixture: zeros_like aF — same shape and dtype, filled
with the float32 representation of zero (bit pattern 0). -/
def zF : Array := ⟨[1], .kFloat32, true, 0, 1, 1⟩

/-- Counterexample fixture: the output array of Add fsNegZero cpu aF zF. -/
def cF : Array := ⟨[1], .kFloat32, true, 0, 2, 3⟩

/-- Counterexample fixture: the store after Add fsNegZero cpu aF zF sF. -/
def sF2 : State :=
  ⟨[[2147483648], [0], [0]], [none, none, none, some 0], [⟨"add", [0, 1]⟩]⟩

/-- Witness fixture: a client program constructing two int32 arrays and
adding them out-of-place. -/
def csW : List Cmd :=
  [.construct .cpu [1] .kInt32 [5] 0,
    .construct .cpu [1] .kInt32 [7] 0,
    .addO .cpu 0 1]

/-- Witness fixture: the output array of the final step of csW. -/
def cW : Array := ⟨[1], .kInt32, true, 0, 2, 3⟩

/-- Witness fixture: a store with two six-element int32 buffers for the
shape-mismatch case. -/
def s3 : State := ⟨[[1, 2, 3, 4, 5, 6], [1, 2, 3, 4, 5, 6]], [none, none], []⟩

/-- Witness fixture: int32 array of shape [2,3]. -/
def a3 : Array := ⟨[2, 3], .kInt32, true, 0, 0, 0⟩

/-- Witness fixture: int32 array of shape [3,2] over the same store. -/
def b3 : Array := ⟨[3, 2], .kInt32, true, 0, 1, 1⟩

/-- Witness fixture: a float32 array over buffer 1 / node 1 of sW, for the
dtype-mismatch case against the int32 aW. -/
def b4 : Array := ⟨[2], .kFloat32, true, 0, 1, 1⟩

/-- Witness fixture: a store holding an int32 array, a zeros array and a
ones array of the same shape. -/
def sZ : State := ⟨[[1, 2], [0, 0], [1, 1]], [none, none, none], []⟩

/-- Witness fixture: the int32 data array of sZ. -/
def aZ : Array := ⟨[2], .kInt32, true, 0, 0, 0⟩

/-- Witness fixture: zeros_like aZ. -/
def zZ : Array := ⟨[2], .kInt32, true, 0, 1, 1⟩

/-- Witness fixture: ones_like aZ. -/
def oZ : Array := ⟨[2], .kInt32, true, 0, 2, 2⟩

end xchainer

namespace xchainer

theorem getD_set_self {α : Type} (l : List α) (i : Nat) (a d : α)
    (h : i < l.length) : (l.set i a).getD i d = a := by
  simp [List.getD_eq_getElem?_getD, List.getElem?_set_self, h]

theorem getD_set_ne {α : Type} (l : List α) (i j : Nat) (a : α) (d : α)
    (h : i ≠ j) : (l.set i a).getD j d = l.getD j d := by
  simp [List.getD_eq_getElem?_getD, List.getElem?_set_ne, h]

theorem getD_append_left {α : Type} (l m : List α) (k : Nat) (d : α)
    (h : k < l.length) : (l ++ m).getD k d = l.getD k d := by
  simp [List.getD_eq_getElem?_getD, List.getElem?_append_left h]

theorem getD_append_last {α : Type} (l : List α) (a d : α) :
    (l ++ [a]).getD l.length d = a := by
  simp [List.getD_eq_getElem?_getD]

theorem getD_of_length_le {α : Type} (l : List α) (k : Nat) (d : α)
    (h : l.length ≤ k) : l.getD k d = d := by
  simp [List.getD_eq_getElem?_getD, List.getElem?_eq_none h]

theorem set_append_len {α : Type} (l : List α) (a b : α) :
    (l ++ [a]).set l.length b = l ++ [b] := by
  induction l with
  | nil => rfl
  | cons x xs ih =>
    simp [List.cons_append, List.length_cons, ih]

theorem binOpKernel_succ (op : Nat → Nat → Nat) (lid rid oid n : Nat)
    (bufs : List (List Nat)) :
    binOpKernel op lid rid oid (n + 1) bufs =
      (binOpKernel op lid rid oid n bufs).set oid
        (((binOpKernel op lid rid oid n bufs).getD oid []).set n
          (op (((binOpKernel op lid rid oid n bufs).getD lid []).getD n 0)
            (((binOpKernel op lid rid oid n bufs).getD rid []).getD n 0))) := by
  unfold binOpKernel
  rw [List.range_succ, List.foldl_append]
  rfl

theorem binOpKernel_spec (op : Nat → Nat → Nat) (lid rid oid : Nat)
    (bufs : List (List Nat)) (hoid : oid < bufs.length) :
    ∀ n, n ≤ (bufs.getD oid []).length →
      (binOpKernel op lid rid oid n bufs).length = bufs.length ∧
      (∀ j, j ≠ oid →
        (binOpKernel op lid rid oid n bufs).getD j [] = bufs.getD j []) ∧
      ((binOpKernel op lid rid oid n bufs).getD oid []).length =
        (bufs.getD oid []).length ∧
      (∀ i, i < n → ((binOpKernel op lid rid oid n bufs).getD oid []).getD i 0 =
        op ((bufs.getD lid []).getD i 0) ((bufs.getD rid []).getD i 0)) ∧
      (∀ i, n ≤ i → ((binOpKernel op lid rid oid n bufs).getD oid []).getD i 0 =
        (bufs.getD oid []).getD i 0) := by
  intro n
  induction n with
  | zero =>
    intro _
    refine ⟨?_, fun j hj => ?_, ?_, fun i hi => absurd hi (Nat.not_lt_zero i),
      fun i _ => ?_⟩ <;> simp [binOpKernel]
  | succ n ih =>
    intro hn1
    obtain ⟨hL, hOther, hLen, hLt, hGe⟩ := ih (Nat.le_of_succ_le hn1)
    have hoid2 : oid < (binOpKernel op lid rid oid n bufs).length := hL ▸ hoid
    have hreadL : ((binOpKernel op lid rid oid n bufs).getD lid []).getD n 0 =
        (bufs.getD lid []).getD n 0 := by
      by_cases h : lid = oid
      · subst h; exact hGe n (Nat.le_refl n)
      · rw [hOther lid h]
    have hreadR : ((binOpKernel op lid rid oid n bufs).getD rid []).getD n 0 =
        (bufs.getD rid []).getD n 0 := by
      by_cases h : rid = oid
      · subst h; exact hGe n (Nat.le_refl n)
      · rw [hOther rid h]
    rw [binOpKernel_succ, hreadL, hreadR]
    have hmid : ((binOpKernel op lid rid oid n bufs).set oid
        (((binOpKernel op lid rid oid n bufs).getD oid []).set n
          (op ((bufs.getD lid []).getD n 0) ((bufs.getD rid []).getD n 0)))).getD
          oid [] =
        ((binOpKernel op lid rid oid n bufs).getD oid []).set n
          (op ((bufs.getD lid []).getD n 0) ((bufs.getD rid []).getD n 0)) :=
      getD_set_self _ _ _ _ hoid2
    refine ⟨by simpa using hL, fun j hj => ?_, ?_, fun i hi => ?_, fun i hi => ?_⟩
    · rw [getD_set_ne _ _ _ _ _ (fun h => hj h.symm), hOther j hj]
    · rw [hmid, List.length_set, hLen]
    · rw [hmid]
      rcases Nat.lt_succ_iff_lt_or_eq.mp hi with h | h
      · rw [getD_set_ne _ _ _ _ _ (Nat.ne_of_lt h).symm, hLt i h]
      · subst h
        rw [getD_set_self _ _ _ _ (by rw [hLen]; omega)]
    · rw [hmid, getD_set_ne _ _ _ _ _ (by omega), hGe i (by omega)]

end xchainer

namespace xchainer

theorem binOpT_parts (tag : String) (op : Nat → Nat → Nat) (lhs rhs out : Array)
    (s : State) :
    binOpT tag op lhs rhs out s =
      ({ out with node := s.nodes.length },
        ⟨binOpKernel op lhs.data rhs.data out.data (total_size lhs.shape) s.bufs,
          s.nodes ++ [some s.ops.length],
          s.ops ++ [⟨tag, [lhs.node, rhs.node]⟩]⟩) := by
  simp [binOpT, set_append_len]

theorem AddOut_eq (fs : FloatSem) (lhs rhs out : Array) (s : State) :
    Array.AddOut fs lhs rhs out s =
      if lhs.dtype = rhs.dtype then
        if lhs.shape = rhs.shape then
          .ok (binOpT "add" (addScalarOp fs lhs.dtype) lhs rhs out s)
        else .error .ShapeMismatch
      else .error .DtypeMismatch := by
  cases h : lhs.dtype <;> simp [Array.AddOut, Array.AddT, addScalarOp, h]

theorem MulOut_eq (fs : FloatSem) (lhs rhs out : Array) (s : State) :
    Array.MulOut fs lhs rhs out s =
      if lhs.dtype = rhs.dtype then
        if lhs.shape = rhs.shape then
          .ok (binOpT "mul" (mulScalarOp fs lhs.dtype) lhs rhs out s)
        else .error .ShapeMismatch
      else .error .DtypeMismatch := by
  cases h : lhs.dtype <;> simp [Array.MulOut, Array.MulT, mulScalarOp, h]

theorem AddOut_ok (fs : FloatSem) (lhs rhs out : Array) (s : State)
    (hd : lhs.dtype = rhs.dtype) (hs : lhs.shape = rhs.shape) :
    Array.AddOut fs lhs rhs out s =
      .ok (binOpT "add" (addScalarOp fs lhs.dtype) lhs rhs out s) := by
  rw [AddOut_eq]; simp [hd, hs]

theorem MulOut_ok (fs : FloatSem) (lhs rhs out : Array) (s : State)
    (hd : lhs.dtype = rhs.dtype) (hs : lhs.shape = rhs.shape) :
    Array.MulOut fs lhs rhs out s =
      .ok (binOpT "mul" (mulScalarOp fs lhs.dtype) lhs rhs out s) := by
  rw [MulOut_eq]; simp [hd, hs]

theorem AddOut_shape_err (fs : FloatSem) (lhs rhs out : Array) (s : State)
    (hd : lhs.dtype = rhs.dtype) (hs : lhs.shape ≠ rhs.shape) :
    Array.AddOut fs lhs rhs out s = .error .ShapeMismatch := by
  rw [AddOut_eq]; simp [hd, hs]

theorem MulOut_shape_err (fs : FloatSem) (lhs rhs out : Array) (s : State)
    (hd : lhs.dtype = rhs.dtype) (hs : lhs.shape ≠ rhs.shape) :
    Array.MulOut fs lhs rhs out s = .error .ShapeMismatch := by
  rw [MulOut_eq]; simp [hd, hs]

theorem AddOut_dtype_err (fs : FloatSem) (lhs rhs out : Array) (s : State)
    (hd : lhs.dtype ≠ rhs.dtype) :
    Array.AddOut fs lhs rhs out s = .error .DtypeMismatch := by
  rw [AddOut_eq]; simp [hd]

theorem MulOut_dtype_err (fs : FloatSem) (lhs rhs out : Array) (s : State)
    (hd : lhs.dtype ≠ rhs.dtype) :
    Array.MulOut fs lhs rhs out s = .error .DtypeMismatch := by
  rw [MulOut_eq]; simp [hd]

theorem ArrayCtor_replicate (dev : Device) (sh : List Nat) (dt : Dtype)
    (off : Int) (s : State) :
    ArrayCtor dev sh dt (List.replicate (total_size sh) 0) off s =
      (⟨sh, dt, true, off, s.bufs.length, s.nodes.length⟩,
        ⟨s.bufs ++ [List.replicate (total_size sh) 0], s.nodes ++ [none],
          s.ops⟩) := by
  cases dev <;> simp [ArrayCtor, List.take_replicate]

theorem Add_eq_ok (fs : FloatSem) (dev : Device) (a b : Array) (s : State)
    (hd : a.dtype = b.dtype) (hs : a.shape = b.shape) :
    Array.Add fs dev a b s =
      .ok (⟨a.shape, a.dtype, true, 0, s.bufs.length, s.nodes.length + 1⟩,
        ⟨binOpKernel (addScalarOp fs a.dtype) a.data b.data s.bufs.length
            (total_size a.shape)
            (s.bufs ++ [List.replicate (total_size a.shape) 0]),
          (s.nodes ++ [none]) ++ [some s.ops.length],
          s.ops ++ [⟨"add", [a.node, b.node]⟩]⟩) := by
  unfold Array.Add
  rw [ArrayCtor_replicate]
  rw [AddOut_ok _ _ _ _ _ hd hs, binOpT_parts]
  simp

theorem Mul_eq_ok (fs : FloatSem) (dev : Device) (a b : Array) (s : State)
    (hd : a.dtype = b.dtype) (hs : a.shape = b.shape) :
    Array.Mul fs dev a b s =
      .ok (⟨a.shape, a.dtype, true, 0, s.bufs.length, s.nodes.length + 1⟩,
        ⟨binOpKernel (mulScalarOp fs a.dtype) a.data b.data s.bufs.length
            (total_size a.shape)
            (s.bufs ++ [List.replicate (total_size a.shape) 0]),
          (s.nodes ++ [none]) ++ [some s.ops.length],
          s.ops ++ [⟨"mul", [a.node, b.node]⟩]⟩) := by
  unfold Array.Mul
  rw [ArrayCtor_replicate]
  rw [MulOut_ok _ _ _ _ _ hd hs, binOpT_parts]
  simp

theorem IAdd_eq_ok (fs : FloatSem) (a b : Array) (s : State)
    (hd : a.dtype = b.dtype) (hs : a.shape = b.shape) :
    Array.IAdd fs a b s =
      .ok ({ a with node := s.nodes.length },
        ⟨binOpKernel (addScalarOp fs a.dtype) a.data b.data a.data
            (total_size a.shape) s.bufs,
          s.nodes ++ [some s.ops.length],
          s.ops ++ [⟨"add", [a.node, b.node]⟩]⟩) := by
  unfold Array.IAdd
  rw [AddOut_ok _ _ _ _ _ hd hs, binOpT_parts]

theorem IMul_eq_ok (fs : FloatSem) (a b : Array) (s : State)
    (hd : a.dtype = b.dtype) (hs : a.shape = b.shape) :
    Array.IMul fs a b s =
      .ok ({ a with node := s.nodes.length },
        ⟨binOpKernel (mulScalarOp fs a.dtype) a.data b.data a.data
            (total_size a.shape) s.bufs,
          s.nodes ++ [some s.ops.length],
          s.ops ++ [⟨"mul", [a.node, b.node]⟩]⟩) := by
  unfold Array.IMul
  rw [MulOut_ok _ _ _ _ _ hd hs, binOpT_parts]

theorem Add_shape_err (fs : FloatSem) (dev : Device) (a b : Array) (s : State)
    (hd : a.dtype = b.dtype) (hs : a.shape ≠ b.shape) :
    Array.Add fs dev a b s = .error .ShapeMismatch :=
  AddOut_shape_err _ _ _ _ _ hd hs

theorem Mul_shape_err (fs : FloatSem) (dev : Device) (a b : Array) (s : State)
    (hd : a.dtype = b.dtype) (hs : a.shape ≠ b.shape) :
    Array.Mul fs dev a b s = .error .ShapeMismatch :=
  MulOut_shape_err _ _ _ _ _ hd hs

theorem Add_dtype_err (fs : FloatSem) (dev : Device) (a b : Array) (s : State)
    (hd : a.dtype ≠ b.dtype) :
    Array.Add fs dev a b s = .error .DtypeMismatch :=
  AddOut_dtype_err _ _ _ _ _ hd

theorem Mul_dtype_err (fs : FloatSem) (dev : Device) (a b : Array) (s : State)
    (hd : a.dtype ≠ b.dtype) :
    Array.Mul fs dev a b s = .error .DtypeMismatch :=
  MulOut_dtype_err _ _ _ _ _ hd

end xchainer

namespace xchainer

theorem kernelFresh_spec (op : Nat → Nat → Nat) (a b : Array) (s : State)
    (ha : a.data < s.bufs.length) (hb : b.data < s.bufs.length) :
    (∀ i, i < total_size a.shape →
      ((binOpKernel op a.data b.data s.bufs.length (total_size a.shape)
          (s.bufs ++ [List.replicate (total_size a.shape) 0])).getD
          s.bufs.length []).getD i 0 =
        op ((s.bufs.getD a.data []).getD i 0) ((s.bufs.getD b.data []).getD i 0)) ∧
    (∀ j, j < s.bufs.length →
      (binOpKernel op a.data b.data s.bufs.length (total_size a.shape)
          (s.bufs ++ [List.replicate (total_size a.shape) 0])).getD j [] =
        s.bufs.getD j []) := by
  have hoid : s.bufs.length <
      (s.bufs ++ [List.replicate (total_size a.shape) 0]).length := by simp
  have hget : (s.bufs ++ [List.replicate (total_size a.shape) 0]).getD
      s.bufs.length [] = List.replicate (total_size a.shape) 0 :=
    getD_append_last _ _ _
  have hn : total_size a.shape ≤
      ((s.bufs ++ [List.replicate (total_size a.shape) 0]).getD
        s.bufs.length []).length := by rw [hget]; simp
  obtain ⟨_, hOther, _, hLt, _⟩ :=
    binOpKernel_spec op a.data b.data s.bufs.length _ hoid (total_size a.shape) hn
  constructor
  · intro i hi
    rw [hLt i hi, getD_append_left _ _ _ _ ha, getD_append_left _ _ _ _ hb]
  · intro j hj
    rw [hOther j (Nat.ne_of_lt hj), getD_append_left _ _ _ _ hj]

/-- C1: for Arrays of equal shape and dtype, the out-of-place Add returns
an Array whose element i is the shared dtype's native sum a[i] + b[i] for
every i below total_size, with flat contiguous iteration, and Mul
analogously returns the native products; the operands' buffer contents
are unchanged by the call (their shape and dtype fields are values of the
embedding and cannot change). -/
theorem claim_C1 (fs : FloatSem) (dev : Device) (a b : Array) (s : State)
    (hWa : WFArray s a) (hWb : WFArray s b)
    (hd : a.dtype = b.dtype) (hs : a.shape = b.shape) :
    (∃ c s2, Array.Add fs dev a b s = .ok (c, s2) ∧
      c.shape = a.shape ∧ c.dtype = a.dtype ∧
      (∀ i, i < total_size a.shape →
        (s2.bufs.getD c.data []).getD i 0 =
          addScalarOp fs a.dtype ((s.bufs.getD a.data []).getD i 0)
            ((s.bufs.getD b.data []).getD i 0)) ∧
      s2.bufs.getD a.data [] = s.bufs.getD a.data [] ∧
      s2.bufs.getD b.data [] = s.bufs.getD b.data []) ∧
    (∃ c s2, Array.Mul fs dev a b s = .ok (c, s2) ∧
      c.shape = a.shape ∧ c.dtype = a.dtype ∧
      (∀ i, i < total_size a.shape →
        (s2.bufs.getD c.data []).getD i 0 =
          mulScalarOp fs a.dtype ((s.bufs.getD a.data []).getD i 0)
            ((s.bufs.getD b.data []).getD i 0)) ∧
      s2.bufs.getD a.data [] = s.bufs.getD a.data [] ∧
      s2.bufs.getD b.data [] = s.bufs.getD b.data []) := by
  obtain ⟨hadd1, hadd2⟩ :=
    kernelFresh_spec (addScalarOp fs a.dtype) a b s hWa.1 hWb.1
  obtain ⟨hmul1, hmul2⟩ :=
    kernelFresh_spec (mulScalarOp fs a.dtype) a b s hWa.1 hWb.1
  exact ⟨⟨_, _, Add_eq_ok fs dev a b s hd hs, rfl, rfl, hadd1,
      hadd2 a.data hWa.1, hadd2 b.data hWb.1⟩,
    ⟨_, _, Mul_eq_ok fs dev a b s hd hs, rfl, rfl, hmul1,
      hmul2 a.data hWa.1, hmul2 b.data hWb.1⟩⟩

theorem claim_C1_witness :
    (∃ c s2, Array.Add fsTriv Device.cpu aW bW sW = .ok (c, s2) ∧
      c.shape = aW.shape ∧ c.dtype = aW.dtype ∧
      (∀ i, i < total_size aW.shape →
        (s2.bufs.getD c.data []).getD i 0 =
          addScalarOp fsTriv aW.dtype ((sW.bufs.getD aW.data []).getD i 0)
            ((sW.bufs.getD bW.data []).getD i 0)) ∧
      s2.bufs.getD aW.data [] = sW.bufs.getD aW.data [] ∧
      s2.bufs.getD bW.data [] = sW.bufs.getD bW.data []) ∧
    (∃ c s2, Array.Mul fsTriv Device.cpu aW bW sW = .ok (c, s2) ∧
      c.shape = aW.shape ∧ c.dtype = aW.dtype ∧
      (∀ i, i < total_size aW.shape →
        (s2.bufs.getD c.data []).getD i 0 =
          mulScalarOp fsTriv aW.dtype ((sW.bufs.getD aW.data []).getD i 0)
            ((sW.bufs.getD bW.data []).getD i 0)) ∧
      s2.bufs.getD aW.data [] = sW.bufs.getD aW.data [] ∧
      s2.bufs.getD bW.data [] = sW.bufs.getD bW.data []) :=
  claim_C1 fsTriv Device.cpu aW bW sW (by decide) (by decide) (by decide)
    (by decide)

/-- C2: for every successful out-of-place Add (resp. Mul), the output's
node is freshly created (its id exceeds every pre-existing node id), its
producer is the newly appended edge record tagged "add" (resp. "mul")
whose operand sequence is exactly [a.node, b.node] in left-then-right
order, and the operands' nodes keep their producers unset if they were
leaves. -/
theorem claim_C2 (fs : FloatSem) (dev : Device) (a b : Array) (s : State)
    (hWa : WFArray s a) (hWb : WFArray s b)
    (hd : a.dtype = b.dtype) (hs : a.shape = b.shape) :
    (∃ c s2, Array.Add fs dev a b s = .ok (c, s2) ∧
      c.node = s.nodes.length + 1 ∧
      s2.nodes.getD c.node none = some s.ops.length ∧
      s2.ops.getD s.ops.length ⟨"", []⟩ = ⟨"add", [a.node, b.node]⟩ ∧
      (s.nodes.getD a.node none = none → s2.nodes.getD a.node none = none) ∧
      (s.nodes.getD b.node none = none → s2.nodes.getD b.node none = none)) ∧
    (∃ c s2, Array.Mul fs dev a b s = .ok (c, s2) ∧
      c.node = s.nodes.length + 1 ∧
      s2.nodes.getD c.node none = some s.ops.length ∧
      s2.ops.getD s.ops.length ⟨"", []⟩ = ⟨"mul", [a.node, b.node]⟩ ∧
      (s.nodes.getD a.node none = none → s2.nodes.getD a.node none = none) ∧
      (s.nodes.getD b.node none = none → s2.nodes.getD b.node none = none)) := by
  have e : s.nodes.length + 1 = (s.nodes ++ [none]).length := by simp
  have hb1 : a.node < (s.nodes ++ [(none : Option Nat)]).length := by
    have := hWa.2.1; simp; omega
  have hb2 : b.node < (s.nodes ++ [(none : Option Nat)]).length := by
    have := hWb.2.1; simp; omega
  refine ⟨⟨_, _, Add_eq_ok fs dev a b s hd hs, rfl, ?_, ?_, ?_, ?_⟩,
    ⟨_, _, Mul_eq_ok fs dev a b s hd hs, rfl, ?_, ?_, ?_, ?_⟩⟩
  · show ((s.nodes ++ [none]) ++ [some s.ops.length]).getD
      (s.nodes.length + 1) none = some s.ops.length
    rw [e, getD_append_last]
  · exact getD_append_last _ _ _
  · intro h
    show ((s.nodes ++ [none]) ++ [some s.ops.length]).getD a.node none = none
    rw [getD_append_left _ _ _ _ hb1, getD_append_left _ _ _ _ hWa.2.1]
    exact h
  · intro h
    show ((s.nodes ++ [none]) ++ [some s.ops.length]).getD b.node none = none
    rw [getD_append_left _ _ _ _ hb2, getD_append_left _ _ _ _ hWb.2.1]
    exact h
  · show ((s.nodes ++ [none]) ++ [some s.ops.length]).getD
      (s.nodes.length + 1) none = some s.ops.length
    rw [e, getD_append_last]
  · exact getD_append_last _ _ _
  · intro h
    show ((s.nodes ++ [none]) ++ [some s.ops.length]).getD a.node none = none
    rw [getD_append_left _ _ _ _ hb1, getD_append_left _ _ _ _ hWa.2.1]
    exact h
  · intro h
    show ((s.nodes ++ [none]) ++ [some s.ops.length]).getD b.node none = none
    rw [getD_append_left _ _ _ _ hb2, getD_append_left _ _ _ _ hWb.2.1]
    exact h

theorem claim_C2_witness :
    (∃ c s2, Array.Add fsTriv Device.cpu aW bW sW = .ok (c, s2) ∧
      c.node = sW.nodes.length + 1 ∧
      s2.nodes.getD c.node none = some sW.ops.length ∧
      s2.ops.getD sW.ops.length ⟨"", []⟩ = ⟨"add", [aW.node, bW.node]⟩ ∧
      (sW.nodes.getD aW.node none = none →
        s2.nodes.getD aW.node none = none) ∧
      (sW.nodes.getD bW.node none = none →
        s2.nodes.getD bW.node none = none)) ∧
    (∃ c s2, Array.Mul fsTriv Device.cpu aW bW sW = .ok (c, s2) ∧
      c.node = sW.nodes.length + 1 ∧
      s2.nodes.getD c.node none = some sW.ops.length ∧
      s2.ops.getD sW.ops.length ⟨"", []⟩ = ⟨"mul", [aW.node, bW.node]⟩ ∧
      (sW.nodes.getD aW.node none = none →
        s2.nodes.getD aW.node none = none) ∧
      (sW.nodes.getD bW.node none = none →
        s2.nodes.getD bW.node none = none)) :=
  claim_C2 fsTriv Device.cpu aW bW sW (by decide) (by decide) (by decide)
    (by decide)

/-- C3: for Arrays of equal dtype but unequal shape, both out-of-place
operations fail with ShapeMismatch (as do the out-parameter overloads),
and the observable store is unchanged: the transiently constructed output
Array of the out-of-place form is destroyed during stack unwinding, so no
output buffer survives and nothing is written. -/
theorem claim_C3 (fs : FloatSem) (dev : Device) (a b out : Array) (s : State)
    (env : List Array) (i j : Nat)
    (hd : a.dtype = b.dtype) (hs : a.shape ≠ b.shape)
    (hi : env.get? i = some a) (hj : env.get? j = some b) :
    Array.Add fs dev a b s = .error .ShapeMismatch ∧
    Array.Mul fs dev a b s = .error .ShapeMismatch ∧
    Array.AddOut fs a b out s = .error .ShapeMismatch ∧
    Array.MulOut fs a b out s = .error .ShapeMismatch ∧
    exec fs (Cmd.addO dev i j) (env, s) = (env, s) ∧
    exec fs (Cmd.mulO dev i j) (env, s) = (env, s) := by
  refine ⟨Add_shape_err fs dev a b s hd hs, Mul_shape_err fs dev a b s hd hs,
    AddOut_shape_err fs a b out s hd hs, MulOut_shape_err fs a b out s hd hs,
    ?_, ?_⟩
  · have hi2 : env[i]? = some a := by simpa [List.get?_eq_getElem?] using hi
    have hj2 : env[j]? = some b := by simpa [List.get?_eq_getElem?] using hj
    simp [exec, hi2, hj2, Add_shape_err fs dev a b s hd hs]
  · have hi2 : env[i]? = some a := by simpa [List.get?_eq_getElem?] using hi
    have hj2 : env[j]? = some b := by simpa [List.get?_eq_getElem?] using hj
    simp [exec, hi2, hj2, Mul_shape_err fs dev a b s hd hs]

theorem claim_C3_witness :
    Array.Add fsTriv Device.cpu a3 b3 s3 = .error .ShapeMismatch ∧
    Array.Mul fsTriv Device.cpu a3 b3 s3 = .error .ShapeMismatch ∧
    Array.AddOut fsTriv a3 b3 a3 s3 = .error .ShapeMismatch ∧
    Array.MulOut fsTriv a3 b3 a3 s3 = .error .ShapeMismatch ∧
    exec fsTriv (Cmd.addO Device.cpu 0 1) ([a3, b3], s3) = ([a3, b3], s3) ∧
    exec fsTriv (Cmd.mulO Device.cpu 0 1) ([a3, b3], s3) = ([a3, b3], s3) :=
  claim_C3 fsTriv Device.cpu a3 b3 a3 s3 [a3, b3] 0 1 (by decide) (by decide)
    (by decide) (by decide)

theorem IAdd_dtype_err (fs : FloatSem) (a b : Array) (s : State)
    (hd : a.dtype ≠ b.dtype) :
    Array.IAdd fs a b s = .error .DtypeMismatch :=
  AddOut_dtype_err fs a b a s hd

theorem IMul_dtype_err (fs : FloatSem) (a b : Array) (s : State)
    (hd : a.dtype ≠ b.dtype) :
    Array.IMul fs a b s = .error .DtypeMismatch :=
  MulOut_dtype_err fs a b a s hd

/-- C4: for Arrays of unequal dtype, every call shape of Add and Mul
(out-of-place, out-parameter, in-place) fails with DtypeMismatch before
any buffer is touched: the observable store is unchanged, so no output
element is written, the operands are unchanged, and no graph node or edge
record survives the call (the out-of-place form's transient output Array
is destroyed during stack unwinding). -/
theorem claim_C4 (fs : FloatSem) (dev : Device) (a b out : Array) (s : State)
    (env : List Array) (i j : Nat)
    (hd : a.dtype ≠ b.dtype)
    (hi : env.get? i = some a) (hj : env.get? j = some b) :
    Array.Add fs dev a b s = .error .DtypeMismatch ∧
    Array.Mul fs dev a b s = .error .DtypeMismatch ∧
    Array.AddOut fs a b out s = .error .DtypeMismatch ∧
    Array.MulOut fs a b out s = .error .DtypeMismatch ∧
    Array.IAdd fs a b s = .error .DtypeMismatch ∧
    Array.IMul fs a b s = .error .DtypeMismatch ∧
    exec fs (Cmd.addO dev i j) (env, s) = (env, s) ∧
    exec fs (Cmd.mulO dev i j) (env, s) = (env, s) ∧
    exec fs (Cmd.iaddO i j) (env, s) = (env, s) ∧
    exec fs (Cmd.imulO i j) (env, s) = (env, s) := by
  refine ⟨Add_dtype_err fs dev a b s hd, Mul_dtype_err fs dev a b s hd,
    AddOut_dtype_err fs a b out s hd, MulOut_dtype_err fs a b out s hd,
    IAdd_dtype_err fs a b s hd, IMul_dtype_err fs a b s hd, ?_, ?_, ?_, ?_⟩ <;>
  · have hi2 : env[i]? = some a := by simpa [List.get?_eq_getElem?] using hi
    have hj2 : env[j]? = some b := by simpa [List.get?_eq_getElem?] using hj
    simp [exec, hi2, hj2, Add_dtype_err fs dev a b s hd,
      Mul_dtype_err fs dev a b s hd, IAdd_dtype_err fs a b s hd,
      IMul_dtype_err fs a b s hd]

theorem claim_C4_witness :
    Array.Add fsTriv Device.cpu aW b4 sW = .error .DtypeMismatch ∧
    Array.Mul fsTriv Device.cpu aW b4 sW = .error .DtypeMismatch ∧
    Array.AddOut fsTriv aW b4 aW sW = .error .DtypeMismatch ∧
    Array.MulOut fsTriv aW b4 aW sW = .error .DtypeMismatch ∧
    Array.IAdd fsTriv aW b4 sW = .error .DtypeMismatch ∧
    Array.IMul fsTriv aW b4 sW = .error .DtypeMismatch ∧
    exec fsTriv (Cmd.addO Device.cpu 0 1) ([aW, b4], sW) = ([aW, b4], sW) ∧
    exec fsTriv (Cmd.mulO Device.cpu 0 1) ([aW, b4], sW) = ([aW, b4], sW) ∧
    exec fsTriv (Cmd.iaddO 0 1) ([aW, b4], sW) = ([aW, b4], sW) ∧
    exec fsTriv (Cmd.imulO 0 1) ([aW, b4], sW) = ([aW, b4], sW) :=
  claim_C4 fsTriv Device.cpu aW b4 aW sW [aW, b4] 0 1 (by decide) (by decide)
    (by decide)

end xchainer

namespace xchainer

/-- C5 counterexample: the claim asserts b is unchanged by IAdd(a, b) for
every pair of Arrays of equal shape and dtype, but Arrays may share one
backing buffer (spec section 3: `data` is shared by every Array that
aliases the same buffer).  With aAlias and bAlias sharing buffer 0 holding
[1], IAdd writes 1 + 1 = 2 into that buffer, so b's contents change from
[1] to [2]. -/
theorem claim_C5_counterexample :
    aAlias.shape = bAlias.shape ∧ aAlias.dtype = bAlias.dtype ∧
    Array.IAdd fsTriv aAlias bAlias sAlias =
      .ok (⟨[1], .kInt32, true, 0, 0, 2⟩,
        ⟨[[2]], [none, none, some 0], [⟨"add", [0, 1]⟩]⟩) ∧
    (⟨[[2]], [none, none, some 0],
        [⟨"add", [0, 1]⟩]⟩ : State).bufs.getD bAlias.data [] ≠
      sAlias.bufs.getD bAlias.data [] :=
  ⟨by decide, by decide, rfl, by decide⟩

/-- C5 (amended): for every pair of Arrays a, b with equal shape and
dtype, IAdd(a, b) mutates a so that afterward a[i] equals
a_before[i] + b_before[i] for every i, returns the receiver itself (the
same Array value with only its node reference replaced by the fresh node
produced by the new "add" edge record over [a.node, b.node]), and b's
buffer is unchanged provided b does not share a's backing buffer (when it
does, b observes a's update); IMul behaves analogously with multiplication
and tag "mul". -/
theorem claim_C5_amended (fs : FloatSem) (a b : Array) (s : State)
    (hWa : WFArray s a) (hWb : WFArray s b)
    (hd : a.dtype = b.dtype) (hs : a.shape = b.shape) :
    (∃ r s2, Array.IAdd fs a b s = .ok (r, s2) ∧
      r = { a with node := s.nodes.length } ∧
      (∀ i, i < total_size a.shape →
        (s2.bufs.getD a.data []).getD i 0 =
          addScalarOp fs a.dtype ((s.bufs.getD a.data []).getD i 0)
            ((s.bufs.getD b.data []).getD i 0)) ∧
      (b.data ≠ a.data → s2.bufs.getD b.data [] = s.bufs.getD b.data []) ∧
      s2.nodes.getD r.node none = some s.ops.length ∧
      s2.ops.getD s.ops.length ⟨"", []⟩ = ⟨"add", [a.node, b.node]⟩) ∧
    (∃ r s2, Array.IMul fs a b s = .ok (r, s2) ∧
      r = { a with node := s.nodes.length } ∧
      (∀ i, i < total_size a.shape →
        (s2.bufs.getD a.data []).getD i 0 =
          mulScalarOp fs a.dtype ((s.bufs.getD a.data []).getD i 0)
            ((s.bufs.getD b.data []).getD i 0)) ∧
      (b.data ≠ a.data → s2.bufs.getD b.data [] = s.bufs.getD b.data []) ∧
      s2.nodes.getD r.node none = some s.ops.length ∧
      s2.ops.getD s.ops.length ⟨"", []⟩ = ⟨"mul", [a.node, b.node]⟩) := by
  have haddk := binOpKernel_spec (addScalarOp fs a.dtype) a.data b.data a.data
    s.bufs hWa.1 (total_size a.shape) hWa.2.2
  have hmulk := binOpKernel_spec (mulScalarOp fs a.dtype) a.data b.data a.data
    s.bufs hWa.1 (total_size a.shape) hWa.2.2
  refine ⟨⟨_, _, IAdd_eq_ok fs a b s hd hs, rfl, haddk.2.2.2.1, ?_, ?_, ?_⟩,
    ⟨_, _, IMul_eq_ok fs a b s hd hs, rfl, hmulk.2.2.2.1, ?_, ?_, ?_⟩⟩
  · intro hne
    exact haddk.2.1 b.data hne
  · exact getD_append_last _ _ _
  · exact getD_append_last _ _ _
  · intro hne
    exact hmulk.2.1 b.data hne
  · exact getD_append_last _ _ _
  · exact getD_append_last _ _ _

theorem claim_C5_amended_witness :
    (∃ r s2, Array.IAdd fsTriv aW bW sW = .ok (r, s2) ∧
      r = { aW with node := sW.nodes.length } ∧
      (∀ i, i < total_size aW.shape →
        (s2.bufs.getD aW.data []).getD i 0 =
          addScalarOp fsTriv aW.dtype ((sW.bufs.getD aW.data []).getD i 0)
            ((sW.bufs.getD bW.data []).getD i 0)) ∧
      (bW.data ≠ aW.data → s2.bufs.getD bW.data [] = sW.bufs.getD bW.data []) ∧
      s2.nodes.getD r.node none = some sW.ops.length ∧
      s2.ops.getD sW.ops.length ⟨"", []⟩ = ⟨"add", [aW.node, bW.node]⟩) ∧
    (∃ r s2, Array.IMul fsTriv aW bW sW = .ok (r, s2) ∧
      r = { aW with node := sW.nodes.length } ∧
      (∀ i, i < total_size aW.shape →
        (s2.bufs.getD aW.data []).getD i 0 =
          mulScalarOp fsTriv aW.dtype ((sW.bufs.getD aW.data []).getD i 0)
            ((sW.bufs.getD bW.data []).getD i 0)) ∧
      (bW.data ≠ aW.data → s2.bufs.getD bW.data [] = sW.bufs.getD bW.data []) ∧
      s2.nodes.getD r.node none = some sW.ops.length ∧
      s2.ops.getD sW.ops.length ⟨"", []⟩ = ⟨"mul", [aW.node, bW.node]⟩) :=
  claim_C5_amended fsTriv aW bW sW (by decide) (by decide) (by decide)
    (by decide)

theorem scalar_id (fs : FloatSem) (d : Dtype) (h32 : d ≠ Dtype.kFloat32)
    (h64 : d ≠ Dtype.kFloat64) (x : Nat) (hx : x < elemMax d) :
    addScalarOp fs d x 0 = x ∧ mulScalarOp fs d x 1 = x := by
  cases d with
  | kBool =>
    have hx2 : x < 2 := by simpa [elemMax] using hx
    interval_cases x
    · exact ⟨rfl, rfl⟩
    · exact ⟨rfl, rfl⟩
  | kInt8 =>
    have hx2 : x < 2 ^ 8 := by simpa [elemMax, GetElementSize] using hx
    constructor
    · simp only [addScalarOp, wrapAdd]
      omega
    · simp only [mulScalarOp, wrapMul, Nat.mul_one]
      omega
  | kInt16 =>
    have hx2 : x < 2 ^ 16 := by simpa [elemMax, GetElementSize] using hx
    constructor
    · simp only [addScalarOp, wrapAdd]
      omega
    · simp only [mulScalarOp, wrapMul, Nat.mul_one]
      omega
  | kInt32 =>
    have hx2 : x < 2 ^ 32 := by simpa [elemMax, GetElementSize] using hx
    constructor
    · simp only [addScalarOp, wrapAdd]
      omega
    · simp only [mulScalarOp, wrapMul, Nat.mul_one]
      omega
  | kInt64 =>
    have hx2 : x < 2 ^ 64 := by simpa [elemMax, GetElementSize] using hx
    constructor
    · simp only [addScalarOp, wrapAdd]
      omega
    · simp only [mulScalarOp, wrapMul, Nat.mul_one]
      omega
  | kUInt8 =>
    have hx2 : x < 2 ^ 8 := by simpa [elemMax, GetElementSize] using hx
    constructor
    · simp only [addScalarOp, wrapAdd]
      omega
    · simp only [mulScalarOp, wrapMul, Nat.mul_one]
      omega
  | kFloat32 => exact absurd rfl h32
  | kFloat64 => exact absurd rfl h64

/-- C7 counterexample: the claim asserts the additive identity for every
supported dtype, including float32.  Take a one-element float32 array a
holding -0.0 (bit pattern 2^31) and z = zeros_like a (same shape and
dtype, filled with the float32 representation of zero, bit pattern 0).
Under IEEE-754 round-to-nearest the native sum -0.0 + +0.0 is +0.0 (bit
pattern 0) — fsNegZero agrees with IEEE-754 at exactly this evaluated
point — so Add(a, zeros_like(a)) holds +0.0 where a holds -0.0: the
result does not equal a element-wise (buffer contents differ). -/
theorem claim_C7_counterexample :
    zF.shape = aF.shape ∧ zF.dtype = aF.dtype ∧
    (∀ i, i < total_size aF.shape → (sF.bufs.getD zF.data []).getD i 0 = 0) ∧
    fsNegZero.f32add 2147483648 0 = 0 ∧
    Array.Add fsNegZero Device.cpu aF zF sF = .ok (cF, sF2) ∧
    (sF2.bufs.getD cF.data []).getD 0 0 ≠ (sF.bufs.getD aF.data []).getD 0 0 :=
  ⟨by decide, by decide, by decide, by decide, rfl, by decide⟩

/-- C7 (amended): for every boolean or integer dtype (the float dtypes are
excluded: under native IEEE-754 arithmetic the additive identity fails on
bit patterns, e.g. -0.0 + +0.0 = +0.0) and every Array a of that dtype
with valid element patterns, Add(a, z) with z the same-shape Array filled
with the dtype's representation of zero equals a element-wise, and
Mul(a, o) with o filled with the dtype's representation of one equals a
element-wise. -/
theorem claim_C7_amended (fs : FloatSem) (dev : Device) (a z o : Array)
    (s : State)
    (h32 : a.dtype ≠ Dtype.kFloat32) (h64 : a.dtype ≠ Dtype.kFloat64)
    (hWa : WFArray s a) (hWz : WFArray s z) (hWo : WFArray s o)
    (hzd : z.dtype = a.dtype) (hzs : z.shape = a.shape)
    (hod : o.dtype = a.dtype) (hos : o.shape = a.shape)
    (hrange : ∀ i, i < total_size a.shape →
      (s.bufs.getD a.data []).getD i 0 < elemMax a.dtype)
    (hz0 : ∀ i, i < total_size a.shape → (s.bufs.getD z.data []).getD i 0 = 0)
    (ho1 : ∀ i, i < total_size a.shape → (s.bufs.getD o.data []).getD i 0 = 1) :
    (∃ c s2, Array.Add fs dev a z s = .ok (c, s2) ∧
      ∀ i, i < total_size a.shape →
        (s2.bufs.getD c.data []).getD i 0 = (s.bufs.getD a.data []).getD i 0) ∧
    (∃ c s2, Array.Mul fs dev a o s = .ok (c, s2) ∧
      ∀ i, i < total_size a.shape →
        (s2.bufs.getD c.data []).getD i 0 = (s.bufs.getD a.data []).getD i 0) := by
  obtain ⟨haddk, _⟩ := kernelFresh_spec (addScalarOp fs a.dtype) a z s hWa.1 hWz.1
  obtain ⟨hmulk, _⟩ := kernelFresh_spec (mulScalarOp fs a.dtype) a o s hWa.1 hWo.1
  refine ⟨⟨_, _, Add_eq_ok fs dev a z s hzd.symm hzs.symm, ?_⟩,
    ⟨_, _, Mul_eq_ok fs dev a o s hod.symm hos.symm, ?_⟩⟩
  · intro i hi
    rw [haddk i hi, hz0 i hi]
    exact (scalar_id fs a.dtype h32 h64 _ (hrange i hi)).1
  · intro i hi
    rw [hmulk i hi, ho1 i hi]
    exact (scalar_id fs a.dtype h32 h64 _ (hrange i hi)).2

theorem claim_C7_amended_witness :
    (∃ c s2, Array.Add fsTriv Device.cpu aZ zZ sZ = .ok (c, s2) ∧
      ∀ i, i < total_size aZ.shape →
        (s2.bufs.getD c.data []).getD i 0 =
          (sZ.bufs.getD aZ.data []).getD i 0) ∧
    (∃ c s2, Array.Mul fsTriv Device.cpu aZ oZ sZ = .ok (c, s2) ∧
      ∀ i, i < total_size aZ.shape →
        (s2.bufs.getD c.data []).getD i 0 =
          (sZ.bufs.getD aZ.data []).getD i 0) :=
  claim_C7_amended fsTriv Device.cpu aZ zZ oZ sZ (by decide) (by decide)
    (by decide) (by decide) (by decide) (by decide) (by decide) (by decide)
    (by decide) (by decide) (by decide) (by decide)

end xchainer

namespace xchainer

/-- C9: the out-parameter forms never validate the caller-supplied output
Array: for any out whatsoever, the call errors if and only if the left and
right operands' dtypes or shapes differ (DtypeMismatch exactly on dtype
inequality, checked first; ShapeMismatch exactly on shape inequality with
equal dtypes) — out's shape, dtype and buffer are never consulted — and
when the operand checks pass the kernel unconditionally runs
binOpKernel over total_size(lhs.shape) elements with lhs's dtype's scalar
operation, writing into out's buffer; changing out's shape, dtype,
contiguity or offset changes nothing but the returned handle's copied
fields. -/
theorem claim_C9 (fs : FloatSem) (a b out : Array) (s : State) :
    (Array.AddOut fs a b out s = .error .DtypeMismatch ↔ a.dtype ≠ b.dtype) ∧
    (Array.AddOut fs a b out s = .error .ShapeMismatch ↔
      a.dtype = b.dtype ∧ a.shape ≠ b.shape) ∧
    (a.dtype = b.dtype → a.shape = b.shape →
      Array.AddOut fs a b out s =
        .ok ({ out with node := s.nodes.length },
          ⟨binOpKernel (addScalarOp fs a.dtype) a.data b.data out.data
              (total_size a.shape) s.bufs,
            s.nodes ++ [some s.ops.length],
            s.ops ++ [⟨"add", [a.node, b.node]⟩]⟩)) ∧
    (∀ sh dt cont off,
      Array.AddOut fs a b ⟨sh, dt, cont, off, out.data, out.node⟩ s =
        (Array.AddOut fs a b out s).map
          fun r => (⟨sh, dt, cont, off, r.1.data, r.1.node⟩, r.2)) ∧
    (Array.MulOut fs a b out s = .error .DtypeMismatch ↔ a.dtype ≠ b.dtype) ∧
    (Array.MulOut fs a b out s = .error .ShapeMismatch ↔
      a.dtype = b.dtype ∧ a.shape ≠ b.shape) ∧
    (a.dtype = b.dtype → a.shape = b.shape →
      Array.MulOut fs a b out s =
        .ok ({ out with node := s.nodes.length },
          ⟨binOpKernel (mulScalarOp fs a.dtype) a.data b.data out.data
              (total_size a.shape) s.bufs,
            s.nodes ++ [some s.ops.length],
            s.ops ++ [⟨"mul", [a.node, b.node]⟩]⟩)) ∧
    (∀ sh dt cont off,
      Array.MulOut fs a b ⟨sh, dt, cont, off, out.data, out.node⟩ s =
        (Array.MulOut fs a b out s).map
          fun r => (⟨sh, dt, cont, off, r.1.data, r.1.node⟩, r.2)) := by
  refine ⟨?_, ?_, ?_, ?_, ?_, ?_, ?_, ?_⟩
  · rw [AddOut_eq]
    by_cases hd : a.dtype = b.dtype
    · by_cases hsh : a.shape = b.shape <;> simp [hd, hsh]
    · simp [hd]
  · rw [AddOut_eq]
    by_cases hd : a.dtype = b.dtype
    · by_cases hsh : a.shape = b.shape <;> simp [hd, hsh]
    · simp [hd]
  · intro hd hsh
    rw [AddOut_ok fs a b out s hd hsh, binOpT_parts]
  · intro sh dt cont off
    rw [AddOut_eq fs a b ⟨sh, dt, cont, off, out.data, out.node⟩ s,
      AddOut_eq fs a b out s]
    by_cases hd : a.dtype = b.dtype
    · by_cases hsh : a.shape = b.shape
      · simp [hd, hsh, binOpT_parts, Except.map]
      · simp [hd, hsh, Except.map]
    · simp [hd, Except.map]
  · rw [MulOut_eq]
    by_cases hd : a.dtype = b.dtype
    · by_cases hsh : a.shape = b.shape <;> simp [hd, hsh]
    · simp [hd]
  · rw [MulOut_eq]
    by_cases hd : a.dtype = b.dtype
    · by_cases hsh : a.shape = b.shape <;> simp [hd, hsh]
    · simp [hd]
  · intro hd hsh
    rw [MulOut_ok fs a b out s hd hsh, binOpT_parts]
  · intro sh dt cont off
    rw [MulOut_eq fs a b ⟨sh, dt, cont, off, out.data, out.node⟩ s,
      MulOut_eq fs a b out s]
    by_cases hd : a.dtype = b.dtype
    · by_cases hsh : a.shape = b.shape
      · simp [hd, hsh, binOpT_parts, Except.map]
      · simp [hd, hsh, Except.map]
    · simp [hd, Except.map]

theorem claim_C9_witness :
    Array.AddOut fsTriv aW bW aW sW =
      .ok ({ aW with node := sW.nodes.length },
        ⟨binOpKernel (addScalarOp fsTriv aW.dtype) aW.data bW.data aW.data
            (total_size aW.shape) sW.bufs,
          sW.nodes ++ [some sW.ops.length],
          sW.ops ++ [⟨"add", [aW.node, bW.node]⟩]⟩) ∧
    (Array.AddOut fsTriv aW b4 aW sW = .error .DtypeMismatch ↔
      aW.dtype ≠ b4.dtype) :=
  ⟨(claim_C9 fsTriv aW bW aW sW).2.2.1 (by decide) (by decide),
    (claim_C9 fsTriv aW b4 aW sW).1⟩

/-- C10: the offset attribute has no effect on any operation's result:
construction with any offset differs from construction with offset 0 only
in the produced handle's offset field (in particular the CUDA-path copy
reads from the start of the source buffer, so the buffer contents are
identical), and the elementwise operations give identical results — store
included — when the operands' offsets are changed arbitrarily (the
in-place forms return the receiver, so only the returned handle's own
offset field follows the receiver's). -/
theorem claim_C10 (fs : FloatSem) (dev : Device) (sh : List Nat) (dt : Dtype)
    (src : List Nat) (off o1 o2 : Int) (s : State) (a b : Array) :
    (ArrayCtor dev sh dt src off s).1 =
      { (ArrayCtor dev sh dt src 0 s).1 with offset := off } ∧
    (ArrayCtor dev sh dt src off s).2 = (ArrayCtor dev sh dt src 0 s).2 ∧
    Array.Add fs dev { a with offset := o1 } { b with offset := o2 } s =
      Array.Add fs dev a b s ∧
    Array.Mul fs dev { a with offset := o1 } { b with offset := o2 } s =
      Array.Mul fs dev a b s ∧
    Array.IAdd fs { a with offset := o1 } { b with offset := o2 } s =
      (Array.IAdd fs a b s).map (fun r => ({ r.1 with offset := o1 }, r.2)) ∧
    Array.IMul fs { a with offset := o1 } { b with offset := o2 } s =
      (Array.IMul fs a b s).map (fun r => ({ r.1 with offset := o1 }, r.2)) := by
  refine ⟨by cases dev <;> rfl, by cases dev <;> rfl, rfl, rfl, ?_, ?_⟩
  · by_cases hd : a.dtype = b.dtype
    · by_cases hsh : a.shape = b.shape
      · rw [IAdd_eq_ok fs { a with offset := o1 } { b with offset := o2 } s hd
          hsh, IAdd_eq_ok fs a b s hd hsh]
        simp [Except.map]
      · rw [show Array.IAdd fs { a with offset := o1 } { b with offset := o2 }
            s = .error .ShapeMismatch from
            AddOut_shape_err fs _ _ _ s hd hsh,
          show Array.IAdd fs a b s = .error .ShapeMismatch from
            AddOut_shape_err fs a b a s hd hsh]
        rfl
    · rw [show Array.IAdd fs { a with offset := o1 } { b with offset := o2 }
          s = .error .DtypeMismatch from AddOut_dtype_err fs _ _ _ s hd,
        show Array.IAdd fs a b s = .error .DtypeMismatch from
          AddOut_dtype_err fs a b a s hd]
      rfl
  · by_cases hd : a.dtype = b.dtype
    · by_cases hsh : a.shape = b.shape
      · rw [IMul_eq_ok fs { a with offset := o1 } { b with offset := o2 } s hd
          hsh, IMul_eq_ok fs a b s hd hsh]
        simp [Except.map]
      · rw [show Array.IMul fs { a with offset := o1 } { b with offset := o2 }
            s = .error .ShapeMismatch from
            MulOut_shape_err fs _ _ _ s hd hsh,
          show Array.IMul fs a b s = .error .ShapeMismatch from
            MulOut_shape_err fs a b a s hd hsh]
        rfl
    · rw [show Array.IMul fs { a with offset := o1 } { b with offset := o2 }
          s = .error .DtypeMismatch from MulOut_dtype_err fs _ _ _ s hd,
        show Array.IMul fs a b s = .error .DtypeMismatch from
          MulOut_dtype_err fs a b a s hd]
      rfl

end xchainer

namespace xchainer

theorem exec_out (fs : FloatSem) (c : Cmd) (env : List Array) (s : State) :
    exec fs c (env, s) = (env, s) ∨
    (∃ sh dt off contents, exec fs c (env, s) =
      (env ++ [⟨sh, dt, true, off, s.bufs.length, s.nodes.length⟩],
        ⟨s.bufs ++ [contents], s.nodes ++ [none], s.ops⟩)) ∨
    (∃ a b tag B, a ∈ env ∧ b ∈ env ∧ exec fs c (env, s) =
      (env ++ [⟨a.shape, a.dtype, true, 0, s.bufs.length, s.nodes.length + 1⟩],
        ⟨B, (s.nodes ++ [none]) ++ [some s.ops.length],
          s.ops ++ [⟨tag, [a.node, b.node]⟩]⟩)) ∨
    (∃ a b tag B i c2, a ∈ env ∧ b ∈ env ∧ c2.node = s.nodes.length ∧
      exec fs c (env, s) =
        (env.set i c2, ⟨B, s.nodes ++ [some s.ops.length],
          s.ops ++ [⟨tag, [a.node, b.node]⟩]⟩)) := by
  cases c with
  | construct dev sh dt src off =>
    cases dev
    · exact .inr (.inl ⟨sh, dt, off, src, rfl⟩)
    · exact .inr (.inl ⟨sh, dt, off, src.take (total_size sh), rfl⟩)
  | addO dev i j =>
    cases hi : env.get? i with
    | none =>
      have hi2 : env[i]? = none := by simpa [List.get?_eq_getElem?] using hi
      exact .inl (by simp [exec, hi2])
    | some a =>
      have hi2 : env[i]? = some a := by simpa [List.get?_eq_getElem?] using hi
      cases hj : env.get? j with
      | none =>
        have hj2 : env[j]? = none := by simpa [List.get?_eq_getElem?] using hj
        exact .inl (by simp [exec, hi2, hj2])
      | some b =>
        have hj2 : env[j]? = some b := by simpa [List.get?_eq_getElem?] using hj
        by_cases hd : a.dtype = b.dtype
        · by_cases hsh : a.shape = b.shape
          · refine .inr (.inr (.inl ⟨a, b, "add",
              binOpKernel (addScalarOp fs a.dtype) a.data b.data s.bufs.length
                (total_size a.shape)
                (s.bufs ++ [List.replicate (total_size a.shape) 0]),
              List.get?_mem hi, List.get?_mem hj, ?_⟩))
            simp [exec, hi2, hj2, Add_eq_ok fs dev a b s hd hsh]
          · exact .inl (by
              simp [exec, hi2, hj2, Add_shape_err fs dev a b s hd hsh])
        · exact .inl (by simp [exec, hi2, hj2, Add_dtype_err fs dev a b s hd])
  | mulO dev i j =>
    cases hi : env.get? i with
    | none =>
      have hi2 : env[i]? = none := by simpa [List.get?_eq_getElem?] using hi
      exact .inl (by simp [exec, hi2])
    | some a =>
      have hi2 : env[i]? = some a := by simpa [List.get?_eq_getElem?] using hi
      cases hj : env.get? j with
      | none =>
        have hj2 : env[j]? = none := by simpa [List.get?_eq_getElem?] using hj
        exact .inl (by simp [exec, hi2, hj2])
      | some b =>
        have hj2 : env[j]? = some b := by simpa [List.get?_eq_getElem?] using hj
        by_cases hd : a.dtype = b.dtype
        · by_cases hsh : a.shape = b.shape
          · refine .inr (.inr (.inl ⟨a, b, "mul",
              binOpKernel (mulScalarOp fs a.dtype) a.data b.data s.bufs.length
                (total_size a.shape)
                (s.bufs ++ [List.replicate (total_size a.shape) 0]),
              List.get?_mem hi, List.get?_mem hj, ?_⟩))
            simp [exec, hi2, hj2, Mul_eq_ok fs dev a b s hd hsh]
          · exact .inl (by
              simp [exec, hi2, hj2, Mul_shape_err fs dev a b s hd hsh])
        · exact .inl (by simp [exec, hi2, hj2, Mul_dtype_err fs dev a b s hd])
  | iaddO i j =>
    cases hi : env.get? i with
    | none =>
      have hi2 : env[i]? = none := by simpa [List.get?_eq_getElem?] using hi
      exact .inl (by simp [exec, hi2])
    | some a =>
      have hi2 : env[i]? = some a := by simpa [List.get?_eq_getElem?] using hi
      cases hj : env.get? j with
      | none =>
        have hj2 : env[j]? = none := by simpa [List.get?_eq_getElem?] using hj
        exact .inl (by simp [exec, hi2, hj2])
      | some b =>
        have hj2 : env[j]? = some b := by simpa [List.get?_eq_getElem?] using hj
        by_cases hd : a.dtype = b.dtype
        · by_cases hsh : a.shape = b.shape
          · refine .inr (.inr (.inr ⟨a, b, "add",
              binOpKernel (addScalarOp fs a.dtype) a.data b.data a.data
                (total_size a.shape) s.bufs,
              i, { a with node := s.nodes.length },
              List.get?_mem hi, List.get?_mem hj, rfl, ?_⟩))
            simp [exec, hi2, hj2, IAdd_eq_ok fs a b s hd hsh]
          · exact .inl (by
              simp [exec, Array.IAdd, hi2, hj2,
                AddOut_shape_err fs a b a s hd hsh])
        · exact .inl (by simp [exec, hi2, hj2, IAdd_dtype_err fs a b s hd])
  | imulO i j =>
    cases hi : env.get? i with
    | none =>
      have hi2 : env[i]? = none := by simpa [List.get?_eq_getElem?] using hi
      exact .inl (by simp [exec, hi2])
    | some a =>
      have hi2 : env[i]? = some a := by simpa [List.get?_eq_getElem?] using hi
      cases hj : env.get? j with
      | none =>
        have hj2 : env[j]? = none := by simpa [List.get?_eq_getElem?] using hj
        exact .inl (by simp [exec, hi2, hj2])
      | some b =>
        have hj2 : env[j]? = some b := by simpa [List.get?_eq_getElem?] using hj
        by_cases hd : a.dtype = b.dtype
        · by_cases hsh : a.shape = b.shape
          · refine .inr (.inr (.inr ⟨a, b, "mul",
              binOpKernel (mulScalarOp fs a.dtype) a.data b.data a.data
                (total_size a.shape) s.bufs,
              i, { a with node := s.nodes.length },
              List.get?_mem hi, List.get?_mem hj, rfl, ?_⟩))
            simp [exec, hi2, hj2, IMul_eq_ok fs a b s hd hsh]
          · exact .inl (by
              simp [exec, Array.IMul, hi2, hj2,
                MulOut_shape_err fs a b a s hd hsh])
        · exact .inl (by simp [exec, hi2, hj2, IMul_dtype_err fs a b s hd])

theorem exec_nodes_mono (fs : FloatSem) (c : Cmd) (env : List Array) (s : State) :
    s.nodes.length ≤ ((exec fs c (env, s)).2).nodes.length ∧
    (∀ k, k < s.nodes.length →
      ((exec fs c (env, s)).2).nodes.getD k none = s.nodes.getD k none) := by
  rcases exec_out fs c env s with h | ⟨sh, dt, off, contents, h⟩ |
    ⟨a, b, tag, B, ha, hb, h⟩ | ⟨a, b, tag, B, i, c2, ha, hb, hc, h⟩ <;> rw [h]
  · exact ⟨Nat.le_refl _, fun k hk => rfl⟩
  · constructor
    · show s.nodes.length ≤ (s.nodes ++ [(none : Option Nat)]).length
      simp only [List.length_append, List.length_cons, List.length_nil]
      omega
    · intro k hk
      show (s.nodes ++ [none]).getD k none = s.nodes.getD k none
      exact getD_append_left _ _ _ _ hk
  · constructor
    · show s.nodes.length ≤
        ((s.nodes ++ [(none : Option Nat)]) ++ [some s.ops.length]).length
      simp only [List.length_append, List.length_cons, List.length_nil]
      omega
    · intro k hk
      show ((s.nodes ++ [none]) ++ [some s.ops.length]).getD k none =
        s.nodes.getD k none
      have h1 : k < (s.nodes ++ [(none : Option Nat)]).length := by
        simp only [List.length_append, List.length_cons, List.length_nil]
        omega
      rw [getD_append_left _ _ _ _ h1, getD_append_left _ _ _ _ hk]
  · constructor
    · show s.nodes.length ≤ (s.nodes ++ [some s.ops.length]).length
      simp only [List.length_append, List.length_cons, List.length_nil]
      omega
    · intro k hk
      show (s.nodes ++ [some s.ops.length]).getD k none = s.nodes.getD k none
      exact getD_append_left _ _ _ _ hk

theorem execMany_nodes (fs : FloatSem) (cs : List Cmd) :
    ∀ env s, s.nodes.length ≤ ((execMany fs cs (env, s)).2).nodes.length ∧
      (∀ k, k < s.nodes.length →
        ((execMany fs cs (env, s)).2).nodes.getD k none =
          s.nodes.getD k none) := by
  induction cs with
  | nil => exact fun env s => ⟨Nat.le_refl _, fun k hk => rfl⟩
  | cons c cs ih =>
    intro env s
    have hstep := exec_nodes_mono fs c env s
    have hrest := ih (exec fs c (env, s)).1 (exec fs c (env, s)).2
    constructor
    · exact le_trans hstep.1 hrest.1
    · intro k hk
      have h2 := hrest.2 k (lt_of_lt_of_le hk hstep.1)
      exact h2.trans (hstep.2 k hk)

end xchainer

namespace xchainer

/-- C6: value nodes are write-once with respect to their producer link.
Array construction always creates a brand-new node with no producer (the
produced handle points at the fresh index, whose entry is none), and no
operation of the core ever modifies the producer entry of a node that
existed before the operation started — producers are only ever set, once,
on the node freshly created inside the same operation — so a producer goes
unset-to-set at most once and is never reassigned, and an Array never used
as an operation's output keeps its node's producer unset over any sequence
of operations. -/
theorem claim_C6 (dev : Device) (sh : List Nat) (dt : Dtype) (src : List Nat)
    (off : Int) (fs : FloatSem) (cs : List Cmd) (env : List Array)
    (s : State) :
    ((ArrayCtor dev sh dt src off s).1).node = s.nodes.length ∧
    ((ArrayCtor dev sh dt src off s).2).nodes = s.nodes ++ [none] ∧
    ((ArrayCtor dev sh dt src off s).2).nodes.getD
      ((ArrayCtor dev sh dt src off s).1).node none = none ∧
    (∀ k, k < s.nodes.length →
      ((execMany fs cs (env, s)).2).nodes.getD k none =
        s.nodes.getD k none) := by
  refine ⟨rfl, rfl, ?_, (execMany_nodes fs cs env s).2⟩
  show (s.nodes ++ [none]).getD s.nodes.length none = none
  exact getD_append_last _ _ _

theorem claim_C6_witness :
    ((ArrayCtor Device.cpu [2] Dtype.kInt32 [9, 9] 0 sW).1).node =
      sW.nodes.length ∧
    ((ArrayCtor Device.cpu [2] Dtype.kInt32 [9, 9] 0 sW).2).nodes.getD
      ((ArrayCtor Device.cpu [2] Dtype.kInt32 [9, 9] 0 sW).1).node none =
        none ∧
    ((execMany fsTriv csW ([aW, bW], sW)).2).nodes.getD 0 none =
      sW.nodes.getD 0 none :=
  ⟨(claim_C6 Device.cpu [2] Dtype.kInt32 [9, 9] 0 fsTriv csW [aW, bW] sW).1,
    (claim_C6 Device.cpu [2] Dtype.kInt32 [9, 9] 0 fsTriv csW [aW, bW]
      sW).2.2.1,
    (claim_C6 Device.cpu [2] Dtype.kInt32 [9, 9] 0 fsTriv csW [aW, bW]
      sW).2.2.2 0 (by decide)⟩

theorem WFGraph_mk (B : List (List Nat)) (N : List (Option Nat))
    (O : List OpNode) :
    WFGraph ⟨B, N, O⟩ ↔ ∀ k p, N.getD k none = some p →
      p < O.length ∧ ∀ m ∈ (O.getD p ⟨"", []⟩).next_nodes, m < k :=
  Iff.rfl

theorem WFGraph_ctor (s : State) (hG : WFGraph s) (B : List (List Nat)) :
    WFGraph ⟨B, s.nodes ++ [none], s.ops⟩ := by
  rw [WFGraph_mk]
  intro k p hk
  rcases Nat.lt_trichotomy k s.nodes.length with h | h | h
  · rw [getD_append_left _ _ _ _ h] at hk
    exact hG k p hk
  · subst h
    rw [getD_append_last] at hk
    exact Option.noConfusion hk
  · rw [getD_of_length_le _ _ _ (by
      simp only [List.length_append, List.length_cons, List.length_nil]
      omega)] at hk
    exact Option.noConfusion hk

theorem WFGraph_binop (s : State) (hG : WFGraph s) (B : List (List Nat))
    (tag : String) (m1 m2 : Nat) (h1 : m1 < s.nodes.length)
    (h2 : m2 < s.nodes.length) :
    WFGraph ⟨B, s.nodes ++ [some s.ops.length],
      s.ops ++ [⟨tag, [m1, m2]⟩]⟩ := by
  rw [WFGraph_mk]
  intro k p hk
  rcases Nat.lt_trichotomy k s.nodes.length with h | h | h
  · rw [getD_append_left _ _ _ _ h] at hk
    obtain ⟨hp, hops⟩ := hG k p hk
    refine ⟨by
      simp only [List.length_append, List.length_cons, List.length_nil]
      omega, ?_⟩
    rw [getD_append_left _ _ _ _ hp]
    exact hops
  · subst h
    rw [getD_append_last] at hk
    obtain rfl : s.ops.length = p := Option.some.inj hk
    refine ⟨by
      simp only [List.length_append, List.length_cons, List.length_nil]
      omega, ?_⟩
    rw [getD_append_last]
    intro m hm
    have hm2 : m ∈ [m1, m2] := hm
    simp only [List.mem_cons, List.mem_singleton, List.not_mem_nil,
      or_false] at hm2
    rcases hm2 with rfl | rfl
    · exact h1
    · exact h2
  · rw [getD_of_length_le _ _ _ (by
      simp only [List.length_append, List.length_cons, List.length_nil]
      omega)] at hk
    exact Option.noConfusion hk

theorem WFGraph_empty : WFGraph emptyState := by
  intro k p hk
  exact Option.noConfusion hk

theorem exec_EnvInv (fs : FloatSem) (c : Cmd) (env : List Array) (s : State)
    (h : EnvInv (env, s)) : EnvInv (exec fs c (env, s)) := by
  obtain ⟨hG0, hE0⟩ := h
  have hG : WFGraph s := hG0
  have hE : ∀ x ∈ env, x.node < s.nodes.length := hE0
  rcases exec_out fs c env s with hx | ⟨sh, dt, off, contents, hx⟩ |
    ⟨a, b, tag, B, ha, hb, hx⟩ | ⟨a, b, tag, B, i, c2, ha, hb, hc, hx⟩ <;>
    rw [hx]
  · exact ⟨hG0, hE0⟩
  · constructor
    · exact WFGraph_ctor s hG _
    · intro x hxm
      show x.node < (s.nodes ++ [(none : Option Nat)]).length
      simp only [List.length_append, List.length_cons, List.length_nil]
      rcases List.mem_append.mp hxm with h1 | h1
      · have := hE x h1
        omega
      · simp only [List.mem_singleton] at h1
        subst h1
        show s.nodes.length < s.nodes.length + 1
        omega
  · constructor
    · have hna : a.node < (⟨([] : List (List Nat)), s.nodes ++ [none],
          s.ops⟩ : State).nodes.length := by
        have := hE a ha
        show a.node < (s.nodes ++ [(none : Option Nat)]).length
        simp only [List.length_append, List.length_cons, List.length_nil]
        omega
      have hnb : b.node < (⟨([] : List (List Nat)), s.nodes ++ [none],
          s.ops⟩ : State).nodes.length := by
        have := hE b hb
        show b.node < (s.nodes ++ [(none : Option Nat)]).length
        simp only [List.length_append, List.length_cons, List.length_nil]
        omega
      exact WFGraph_binop ⟨[], s.nodes ++ [none], s.ops⟩
        (WFGraph_ctor s hG []) B tag a.node b.node hna hnb
    · intro x hxm
      show x.node <
        ((s.nodes ++ [(none : Option Nat)]) ++ [some s.ops.length]).length
      simp only [List.length_append, List.length_cons, List.length_nil]
      rcases List.mem_append.mp hxm with h1 | h1
      · have := hE x h1
        omega
      · simp only [List.mem_singleton] at h1
        subst h1
        show s.nodes.length + 1 < s.nodes.length + (0 + 1) + (0 + 1)
        omega
  · constructor
    · exact WFGraph_binop s hG B tag a.node b.node (hE a ha) (hE b hb)
    · intro x hxm
      show x.node < (s.nodes ++ [some s.ops.length]).length
      simp only [List.length_append, List.length_cons, List.length_nil]
      rcases List.mem_or_eq_of_mem_set hxm with h1 | h1
      · have := hE x h1
        omega
      · subst h1
        omega

theorem execMany_EnvInv (fs : FloatSem) (cs : List Cmd) :
    ∀ p, EnvInv p → EnvInv (execMany fs cs p) := by
  induction cs with
  | nil => exact fun p h => h
  | cons c cs ih =>
    intro p h
    obtain ⟨env, s⟩ := p
    exact ih _ (exec_EnvInv fs c env s h)

theorem optFold_congr (f g : Nat → Option String) (L : List Nat)
    (h : ∀ m ∈ L, f m = g m) : ∀ acc, optFold f acc L = optFold g acc L := by
  induction L with
  | nil => intro acc; rfl
  | cons x xs ih =>
    intro acc
    simp only [optFold, List.foldl_cons]
    rw [h x (List.mem_cons_self x xs)]
    exact ih (fun m hm => h m (List.mem_cons_of_mem x hm)) _

theorem optFold_isSome (f : Nat → Option String) (L : List Nat)
    (h : ∀ m ∈ L, (f m).isSome) :
    ∀ acc : Option String, acc.isSome → (optFold f acc L).isSome := by
  induction L with
  | nil => intro acc hacc; exact hacc
  | cons x xs ih =>
    intro acc hacc
    obtain ⟨str, rfl⟩ := Option.isSome_iff_exists.mp hacc
    obtain ⟨t, ht⟩ := Option.isSome_iff_exists.mp
      (h x (List.mem_cons_self x xs))
    simp only [optFold, List.foldl_cons]
    refine ih (fun m hm => h m (List.mem_cons_of_mem x hm)) _ ?_
    simp [ht]

theorem dump_fuel (s : State) (hG : WFGraph s) (k : Nat) :
    ∀ fuel, k < fuel → ∀ ind,
      DebugDumpComputationalGraph s fuel k ind =
        DebugDumpComputationalGraph s (k + 1) k ind ∧
      (DebugDumpComputationalGraph s (k + 1) k ind).isSome := by
  induction k using Nat.strong_induction_on with
  | _ k IH =>
    intro fuel hf ind
    obtain ⟨f, rfl⟩ : ∃ f, fuel = f + 1 := ⟨fuel - 1, by omega⟩
    cases hnode : s.nodes.getD k none with
    | none =>
      constructor
      · simp only [DebugDumpComputationalGraph, hnode]
      · simp only [DebugDumpComputationalGraph, hnode, Option.isSome_some]
    | some p =>
      obtain ⟨hp, hops⟩ := hG k p hnode
      have hrec : ∀ m ∈ (s.ops.getD p ⟨"", []⟩).next_nodes,
          (DebugDumpComputationalGraph s f m (ind + 2) =
            DebugDumpComputationalGraph s (m + 1) m (ind + 2)) ∧
          (DebugDumpComputationalGraph s k m (ind + 2) =
            DebugDumpComputationalGraph s (m + 1) m (ind + 2)) ∧
          (DebugDumpComputationalGraph s (m + 1) m (ind + 2)).isSome := by
        intro m hm
        have hmk : m < k := hops m hm
        exact ⟨(IH m hmk f (by omega) (ind + 2)).1,
          (IH m hmk k (by omega) (ind + 2)).1,
          (IH m hmk k (by omega) (ind + 2)).2⟩
      constructor
      · simp only [DebugDumpComputationalGraph, hnode]
        exact optFold_congr _ _ _
          (fun m hm => ((hrec m hm).1).trans ((hrec m hm).2.1).symm) _
      · simp only [DebugDumpComputationalGraph, hnode]
        refine optFold_isSome _ _ (fun m hm => ?_) _ rfl
        rw [(hrec m hm).2.1]
        exact (hrec m hm).2.2

/-- C8: for every Array produced by any sequence of the core's operations
(Array construction, Add, Mul, IAdd, IMul) starting from the empty store,
the diagnostic dump of its graph terminates: the resulting store satisfies
the acyclicity invariant (every node's operands strictly predate it), the
fuelled depth-first pre-order dump succeeds with fuel node-id + 1, and any
larger fuel gives the same output (so the recursion has a fixed, finite
unfolding).  The traversal itself is a pure function of the store — it
cannot mutate the graph. -/
theorem claim_C8 (fs : FloatSem) (cs : List Cmd) :
    WFGraph (execMany fs cs ([], emptyState)).2 ∧
    ∀ a, a ∈ (execMany fs cs ([], emptyState)).1 →
      ∀ ind fuel, a.node < fuel →
        DebugDumpComputationalGraph (execMany fs cs ([], emptyState)).2 fuel
            a.node ind =
          DebugDumpComputationalGraph (execMany fs cs ([], emptyState)).2
            (a.node + 1) a.node ind ∧
        (DebugDumpComputationalGraph (execMany fs cs ([], emptyState)).2
          (a.node + 1) a.node ind).isSome := by
  have hInv := execMany_EnvInv fs cs ([], emptyState)
    ⟨WFGraph_empty, by simp⟩
  exact ⟨hInv.1, fun a ha ind fuel hfu =>
    dump_fuel (execMany fs cs ([], emptyState)).2 hInv.1 a.node fuel hfu ind⟩

theorem claim_C8_witness :
    (DebugDumpComputationalGraph (execMany fsTriv csW ([], emptyState)).2
      (cW.node + 1) cW.node 0).isSome :=
  ((claim_C8 fsTriv csW).2 cW (by decide) 0 (cW.node + 1) (by decide)).2

end xchainer
